import Mathlib

/-!
Verification of the insurance-brochure extraction pipeline (`src/model.py`).

The Python module reads a PDF, concatenates per-page text, and runs a fixed
set of `re` searches over normalized text to fill a record of policy fields.
This file shallowly embeds that pipeline over `List Char`:

* each Python regex is embedded as an explicit matcher; where the pattern can
  backtrack (optional groups, greedy or lazy stars), backtracking is modelled
  with an explicit priority order (`Option.orElse` over candidate splits),
  which is exactly PCRE leftmost, depth-first priority matching;
* `re.search` is `searchFirst` (try every start position left to right);
* `re.findall` and `re.finditer` scan left to right, resuming after each
  non-overlapping match;
* Python string values become `List Char` internally and `String` in records.

Character classes follow Python `re` on the ASCII texts this program targets:
`\s` is ASCII whitespace, `\d` is `0`-`9`, `(?i)` lowercases both sides.
-/

namespace DocAnalyser

/-- ASCII whitespace, the characters matched by Python's `\s` on this input. -/
def isSpaceCh (c : Char) : Bool :=
  c = ' ' || c = '\t' || c = '\n' || c = '\r' || c = '\x0b' || c = '\x0c'

/-- Case-insensitive literal: consume `pat` from the front of `cs`
(Python `(?i)` literal text), returning the rest. -/
def stripCI : List Char → List Char → Option (List Char)
  | [], cs => some cs
  | _ :: _, [] => none
  | p :: ps, c :: cs => if c.toLower = p.toLower then stripCI ps cs else none

/-- `re.search`: try to match at each start position, left to right;
the first position where the matcher succeeds wins. -/
def searchFirst (m : List Char → Option α) : List Char → Option α
  | [] => m []
  | c :: cs =>
    match m (c :: cs) with
    | some r => some r
    | none => searchFirst m cs

/-- First defined value of a priority-ordered list of alternatives. -/
def firstSome : List (Option α) → Option α
  | [] => none
  | o :: os => match o with | some r => some r | none => firstSome os

/-- A matcher continuation: given the rest of the input, produce the result
of the whole match. -/
abbrev Cont (α : Type) := List Char → Option α

/-- A pattern fragment in continuation style, so that alternation and star
backtracking follow regex priority order (depth-first, leftmost). -/
def Pat := {α : Type} → Cont α → Cont α

/-- Sequencing of pattern fragments. -/
def kSeq (a b : Pat) : Pat := fun k => a (b k)

/-- Literal fragment (case-insensitive). -/
def kLit (pat : String) : Pat := fun k cs => (stripCI pat.data cs).bind k

/-- Alternation fragment: left alternative has priority. -/
def kAlt (a b : Pat) : Pat := fun k cs =>
  match a k cs with
  | some r => some r
  | none => b k cs

/-- Optional fragment `X?`: taking `X` has priority over skipping it. -/
def kOpt (a : Pat) : Pat := fun k cs =>
  match a k cs with
  | some r => some r
  | none => k cs

/-- Greedy character-class star `[C]*`: longest run first, then backtrack. -/
def kStarG (cls : Char → Bool) : Pat := fun k cs =>
  let n := (cs.takeWhile cls).length
  firstSome ((List.range (n + 1)).map fun i => k (cs.drop (n - i)))

/-- Greedy character-class plus `[C]+`: at least one, longest run first. -/
def kPlusG (cls : Char → Bool) : Pat := fun k cs =>
  let n := (cs.takeWhile cls).length
  firstSome ((List.range n).map fun i => k (cs.drop (n - i)))

/-- Lazy character-class star `[C]*?`: shortest run first. -/
def kStarL (cls : Char → Bool) : Pat := fun k cs =>
  let n := (cs.takeWhile cls).length
  firstSome ((List.range (n + 1)).map fun i => k (cs.drop i))

/-- The empty pattern fragment. -/
def kEps : Pat := fun k => k

/-- Whole-pattern match at the start of `cs`, returning the matched span
(`match.group(0)`): the rest left by the first successful parse determines
the span's length. -/
def matchSpan (p : Pat) (cs : List Char) : Option (List Char) :=
  (p some cs).map fun rest => cs.take (cs.length - rest.length)

/-- Match `PREFIX ([C]+ or [C]*) SUFFIX` at the start of `cs`, returning the
capture and the total number of characters consumed (for `finditer`).
The capture takes its whole greedy run: in every use below the suffix begins
with `\s*` followed by a letter requirement or is empty, so giving capture
characters back to the suffix can never succeed, and the greedy run is the
unique candidate. -/
def matchCapC (pre : Pat) (cls : Char → Bool) (needOne : Bool) (suf : Pat)
    (cs : List Char) : Option (List Char × Nat) :=
  (pre (fun rest =>
      if needOne && (rest.takeWhile cls).isEmpty then none
      else
        (suf (fun rest2 => some rest2.length) (rest.drop (rest.takeWhile cls).length)).map
          fun rl => (rest.takeWhile cls, rl)) cs).map
    fun pr => (pr.1, cs.length - pr.2)

/-- `matchCapC` keeping only the capture (`match.group(1)`). -/
def matchCap (pre : Pat) (cls : Char → Bool) (needOne : Bool) (suf : Pat)
    (cs : List Char) : Option (List Char) :=
  (matchCapC pre cls needOne suf cs).map Prod.fst

/-- Python `str.strip()` on ASCII whitespace. -/
def stripWS (cs : List Char) : List Char :=
  ((cs.dropWhile isSpaceCh).reverse.dropWhile isSpaceCh).reverse

/-! ## `clean_content` (`src/model.py` lines 76-86) -/

/-- Matcher for `(?i)CIN:\s*U\d+.*?\n` at the start of the input, returning
the rest after the match.  `\s*` is greedy but `U` is not whitespace and
`\d+` cannot feed `.*?` any way that moves the terminating newline, so the
match is deterministic: skip whitespace, require `U`, require digits, then
everything up to and including the first newline. -/
def cinMatchAt (cs : List Char) : Option (List Char) :=
  (stripCI "cin:".data cs).bind fun r1 =>
    match r1.dropWhile isSpaceCh with
    | c :: r3 =>
      if c.toLower = 'u' then
        if (r3.takeWhile Char.isDigit).isEmpty then none
        else
          match (r3.drop (r3.takeWhile Char.isDigit).length).dropWhile (fun d => d ≠ '\n') with
          | d :: r4 => if d = '\n' then some r4 else none
          | [] => none
      else none
    | [] => none

/-- Matcher for `(?i)Trade Logo.*?\n` at the start of the input. -/
def tlMatchAt (cs : List Char) : Option (List Char) :=
  (stripCI "trade logo".data cs).bind fun r1 =>
    match r1.dropWhile (fun d => d ≠ '\n') with
    | d :: r2 => if d = '\n' then some r2 else none
    | [] => none

/-- `re.sub(pattern, '', text)`: scan left to right; at a match, drop the
matched span and resume after it, otherwise keep one character and advance.
Both patterns consume at least one character whenever they match, so with
`fuel = cs.length` the fuel never runs out before the scan finishes; the
fuel only makes the recursion structural. -/
def subAllFuel (m : List Char → Option (List Char)) : Nat → List Char → List Char
  | 0, cs => cs
  | _ + 1, [] => []
  | n + 1, c :: cs =>
    match m (c :: cs) with
    | some rest => subAllFuel m n ((c :: cs).drop (max 1 ((c :: cs).length - rest.length)))
    | none => c :: subAllFuel m n cs

/-- `re.sub(pattern, '', text)` over the whole input. -/
def subAll (m : List Char → Option (List Char)) (cs : List Char) : List Char :=
  subAllFuel m cs.length cs

/-- One pass of `re.sub(r'\s+', ' ', text)`: every maximal whitespace run
becomes a single space.  The flag records whether we are inside a run. -/
def collapseAux : Bool → List Char → List Char
  | _, [] => []
  | inRun, c :: cs =>
    if isSpaceCh c then
      if inRun then collapseAux true cs else ' ' :: collapseAux true cs
    else c :: collapseAux false cs

/-- `clean_content` (`src/model.py` lines 76-86): remove `CIN:`/`Trade Logo`
boilerplate lines, collapse whitespace runs to single spaces, trim. -/
def cleanContent (cs : List Char) : List Char :=
  stripWS (collapseAux false (subAll tlMatchAt (subAll cinMatchAt cs)))

example : cleanContent "  a \n\n b\tc ".data = "a b c".data := by decide
example : cleanContent "CIN: U12 junk\nkeep this".data = "keep this".data := by decide
example : cleanContent "x Trade Logo blah\ny".data = "x y".data := by decide

/-! ## Character classes of the patterns -/

/-- `[\d,]` -/
def clsDigitComma (c : Char) : Bool := c.isDigit || c = ','

/-- `[0-9 -]` -/
def clsPhone (c : Char) : Bool := c.isDigit || c = ' ' || c = '-'

/-- `[0-9-]` -/
def clsPhoneNoSp (c : Char) : Bool := c.isDigit || c = '-'

/-- `[A-Z0-9-]` under `(?i)` -/
def clsToken (c : Char) : Bool := c.isAlpha || c.isDigit || c = '-'

/-- `[^\n.]` -/
def clsNotDotNL (c : Char) : Bool := !(c = '.' || c = '\n')

/-- `[^.]` -/
def clsNotDot (c : Char) : Bool := c ≠ '.'

/-- `[^:]` -/
def clsNotColon (c : Char) : Bool := c ≠ ':'

/-- `[^\n]` -/
def clsNotNL (c : Char) : Bool := c ≠ '\n'

/-- `\s*` -/
def spacesStar : Pat := kStarG isSpaceCh

/-- `\s+` -/
def spacesPlus : Pat := kPlusG isSpaceCh

/-! ## Output record types (the dictionaries of `src/model.py`) -/

structure PolicyDetails where
  policy_name : String
  policy_number : String
  insurer_name : String
  insurer_contact : String
  issue_date : String
  expiry_date : String
  deriving DecidableEq, Repr

structure CoverageDetails where
  type : String
  sum_assured : String
  risks_covered : List String
  additional_benefits : List String
  deriving DecidableEq, Repr

structure PremiumInfo where
  amount : String
  frequency : String
  due_dates : String
  grace_period : String
  deriving DecidableEq, Repr

structure ClaimsProcess where
  steps : List String
  documents : List String
  contact : String
  timeframe : String
  deriving DecidableEq, Repr

structure PolicyRecord where
  policy_details : PolicyDetails
  coverage_details : CoverageDetails
  premium_info : PremiumInfo
  exclusions : List String
  claims_process : ClaimsProcess
  deriving DecidableEq, Repr

/-! ## `extract_policy_details` (`src/model.py` lines 88-144) -/

/-- `(?i)TOTAL\s+HEALTH\s+PLAN` -/
def namePat1 : Pat :=
  kSeq (kLit "total") (kSeq spacesPlus (kSeq (kLit "health") (kSeq spacesPlus (kLit "plan"))))

/-- `(?i)(?:policy|plan)\s*(?:name|type)?\s*:?\s*([^\n.]*(?:health|insurance|plan)[^\n.]*)` -/
def namePat2 : Pat :=
  kSeq (kAlt (kLit "policy") (kLit "plan"))
    (kSeq spacesStar
      (kSeq (kOpt (kAlt (kLit "name") (kLit "type")))
        (kSeq spacesStar
          (kSeq (kOpt (kLit ":"))
            (kSeq spacesStar
              (kSeq (kStarG clsNotDotNL)
                (kSeq (kAlt (kLit "health") (kAlt (kLit "insurance") (kLit "plan")))
                  (kStarG clsNotDotNL))))))))

/-- `(?i)HDHHLIP\d+V\d+` -/
def numPat1 : Pat :=
  kSeq (kLit "hdhhlip") (kSeq (kPlusG Char.isDigit) (kSeq (kLit "v") (kPlusG Char.isDigit)))

/-- `(?i)policy\s*(?:number|no|#)\s*:?\s*([A-Z0-9-]+)` -/
def numPat2 : Pat :=
  kSeq (kLit "policy")
    (kSeq spacesStar
      (kSeq (kAlt (kLit "number") (kAlt (kLit "no") (kLit "#")))
        (kSeq spacesStar (kSeq (kOpt (kLit ":")) (kSeq spacesStar (kPlusG clsToken))))))

/-- `(?i)(HDFC\s*ERGO[^.]*(?:Insurance|Company)[^.]*)` (group 1 is the whole match) -/
def insPat1 : Pat :=
  kSeq (kLit "hdfc")
    (kSeq spacesStar
      (kSeq (kLit "ergo")
        (kSeq (kStarG clsNotDot)
          (kSeq (kAlt (kLit "insurance") (kLit "company")) (kStarG clsNotDot)))))

/-- `(?i)(insurance\s*company|insurer)\s*:?\s*([^\n.]*)`: the code stores
`match.group(1)`, the LABEL alternation.  Once the label matches, every
remaining fragment of the pattern can match the empty string, so the whole
pattern succeeds exactly when the label does, and group 1 is the label span. -/
def insurerLabelAt (cs : List Char) : Option (List Char) :=
  match matchSpan (kSeq (kLit "insurance") (kSeq spacesStar (kLit "company"))) cs with
  | some s => some s
  | none => matchSpan (kLit "insurer") cs

/-- `(?i)toll\s*free\s*:?\s*([0-9 -]+)`, returning group 1. -/
def tollFreePat (cs : List Char) : Option (List Char) :=
  matchCap
    (kSeq (kLit "toll")
      (kSeq spacesStar
        (kSeq (kLit "free") (kSeq spacesStar (kSeq (kOpt (kLit ":")) spacesStar)))))
    clsPhone true kEps cs

/-- `(?i)contact\s*(?:at|on|:)\s*([0-9 -]+)`, returning group 1. -/
def contactAtPat (cs : List Char) : Option (List Char) :=
  matchCap
    (kSeq (kLit "contact")
      (kSeq spacesStar
        (kSeq (kAlt (kLit "at") (kAlt (kLit "on") (kLit ":"))) spacesStar)))
    clsPhone true kEps cs

/-- String from characters (shorthand for record fields). -/
def S (cs : List Char) : String := String.mk cs

def extract_policy_details (t : List Char) : PolicyDetails :=
  let tc := cleanContent t
  { policy_name :=
      S (match searchFirst (matchSpan namePat1) tc with
         | some s => stripWS s
         | none =>
           match searchFirst (matchSpan namePat2) tc with
           | some s => stripWS s
           | none => [])
    policy_number :=
      -- the code stores `match.group(0)` here, with no `.strip()`
      S (match searchFirst (matchSpan numPat1) tc with
         | some s => s
         | none =>
           match searchFirst (matchSpan numPat2) tc with
           | some s => s
           | none => [])
    insurer_name :=
      S (match searchFirst (matchSpan insPat1) tc with
         | some s => stripWS s
         | none =>
           match searchFirst insurerLabelAt tc with
           | some s => stripWS s
           | none => [])
    insurer_contact :=
      S (match searchFirst tollFreePat tc with
         | some s => stripWS s
         | none =>
           match searchFirst contactAtPat tc with
           | some s => stripWS s
           | none => [])
    issue_date := ""
    expiry_date := "" }

/-! ## `extract_coverage_details` (`src/model.py` lines 146-175) -/

/-- `(?i)sum\s*(?:assured|insured)\s*(?:-|:)?\s*(?:Rs\.?|INR)?\s*([\d,]+)` -/
def sumPat1 (cs : List Char) : Option (List Char) :=
  matchCap
    (kSeq (kLit "sum")
      (kSeq spacesStar
        (kSeq (kAlt (kLit "assured") (kLit "insured"))
          (kSeq spacesStar
            (kSeq (kOpt (kAlt (kLit "-") (kLit ":")))
              (kSeq spacesStar
                (kSeq (kOpt (kAlt (kSeq (kLit "rs") (kOpt (kLit "."))) (kLit "inr")))
                  spacesStar)))))))
    clsDigitComma true kEps cs

/-- `(?i)(?:coverage|cover)\s*(?:amount|limit)\s*(?:-|:)?\s*(?:Rs\.?|INR)?\s*([\d,]+)` -/
def sumPat2 (cs : List Char) : Option (List Char) :=
  matchCap
    (kSeq (kAlt (kLit "coverage") (kLit "cover"))
      (kSeq spacesStar
        (kSeq (kAlt (kLit "amount") (kLit "limit"))
          (kSeq spacesStar
            (kSeq (kOpt (kAlt (kLit "-") (kLit ":")))
              (kSeq spacesStar
                (kSeq (kOpt (kAlt (kSeq (kLit "rs") (kOpt (kLit "."))) (kLit "inr")))
                  spacesStar)))))))
    clsDigitComma true kEps cs

/-- Terminator of the benefit-section lazy capture:
`(?:exclusions|what is not covered|section|$)` (with `(?i)`). -/
def termBenefit (cs : List Char) : Bool :=
  (stripCI "exclusions".data cs).isSome
    || (stripCI "what is not covered".data cs).isSome
    || (stripCI "section".data cs).isSome
    || cs = []
    || cs = ['\n']

/-- Lazy capture `(.*?)` (with `re.DOTALL`) up to the first position where
the terminator matches; it always stops at the end of the input (`$`). -/
def capUntil (term : List Char → Bool) : List Char → List Char
  | [] => []
  | c :: cs => if term (c :: cs) then [] else c :: capUntil term cs

/-- `(?i)(?:benefits covered|covered benefits|what is covered)(.*?)(?:exclusions|what is not covered|section|$)`
with `re.DOTALL`, returning group 1. -/
def benefitAt (cs : List Char) : Option (List Char) :=
  ((kAlt (kLit "benefits covered") (kAlt (kLit "covered benefits") (kLit "what is covered")))
      some cs).map (capUntil termBenefit)

/-- `(?:•|\d+\.)\s*([^\n.]+)` at the start of the input, returning group 1 and
the number of characters consumed.  In `\d+\.` the greedy digit run cannot
usefully backtrack (any shorter run puts a digit where `\.` is required), so
the lead is deterministic; the `\s*` before the capture can backtrack (the
capture class accepts spaces), tried longest first. -/
def bulletAt (cs : List Char) : Option (List Char × Nat) :=
  let lead : Option Nat :=
    match cs with
    | '•' :: _ => some 1
    | _ =>
      let ds := cs.takeWhile Char.isDigit
      if ds.isEmpty then none
      else
        match cs.drop ds.length with
        | '.' :: _ => some (ds.length + 1)
        | _ => none
  lead.bind fun n =>
    let r := cs.drop n
    let m := (r.takeWhile isSpaceCh).length
    firstSome ((List.range (m + 1)).map fun i =>
      let sp := m - i
      let cap := (r.drop sp).takeWhile clsNotDotNL
      if cap.isEmpty then none else some (cap, n + sp + cap.length))

/-- `re.findall`/`re.finditer`: non-overlapping matches, scanning left to
right and resuming after each match.  Every matcher used here consumes at
least one character on success, so `fuel = cs.length` never runs out and
`max 1` never changes the amount skipped. -/
def findAllAux (m : List Char → Option (List Char × Nat)) :
    Nat → List Char → List (List Char)
  | 0, _ => []
  | _ + 1, [] => []
  | n + 1, c :: cs =>
    match m (c :: cs) with
    | some (cap, k) => cap :: findAllAux m n ((c :: cs).drop (max 1 k))
    | none => findAllAux m n cs

def findAllMatches (m : List Char → Option (List Char × Nat)) (cs : List Char) :
    List (List Char) :=
  findAllAux m cs.length cs

/-- `(?i)CIN:|Trade Logo` (the boilerplate filter used on benefit items). -/
def cinTLAt (cs : List Char) : Option (List Char) :=
  match stripCI "cin:".data cs with
  | some r => some r
  | none => stripCI "trade logo".data cs

def extract_coverage_details (t : List Char) : CoverageDetails :=
  let tc := cleanContent t
  { type := "Health Insurance"
    sum_assured :=
      S (match searchFirst sumPat1 tc with
         | some s => s
         | none =>
           match searchFirst sumPat2 tc with
           | some s => s
           | none => [])
    risks_covered :=
      match searchFirst benefitAt tc with
      | some sec =>
        (findAllMatches bulletAt sec).filterMap fun b =>
          if 10 < (stripWS b).length && (searchFirst cinTLAt b).isNone
          then some (S (stripWS b)) else none
      | none => []
    additional_benefits := [] }

/-! ## `extract_premium_info` (`src/model.py` lines 177-214) -/

/-- `(?i)premium\s*(?:amount)?\s*(?:-|:)?\s*(?:Rs\.?|INR)?\s*([\d,]+)` -/
def premPat1 (cs : List Char) : Option (List Char) :=
  matchCap
    (kSeq (kLit "premium")
      (kSeq spacesStar
        (kSeq (kOpt (kLit "amount"))
          (kSeq spacesStar
            (kSeq (kOpt (kAlt (kLit "-") (kLit ":")))
              (kSeq spacesStar
                (kSeq (kOpt (kAlt (kSeq (kLit "rs") (kOpt (kLit "."))) (kLit "inr")))
                  spacesStar)))))))
    clsDigitComma true kEps cs

/-- `(?i)(?:annual|monthly|quarterly)\s*premium\s*(?:-|:)?\s*(?:Rs\.?|INR)?\s*([\d,]+)` -/
def premPat2 (cs : List Char) : Option (List Char) :=
  matchCap
    (kSeq (kAlt (kLit "annual") (kAlt (kLit "monthly") (kLit "quarterly")))
      (kSeq spacesStar
        (kSeq (kLit "premium")
          (kSeq spacesStar
            (kSeq (kOpt (kAlt (kLit "-") (kLit ":")))
              (kSeq spacesStar
                (kSeq (kOpt (kAlt (kSeq (kLit "rs") (kOpt (kLit "."))) (kLit "inr")))
                  spacesStar)))))))
    clsDigitComma true kEps cs

/-- `(?i)(monthly|quarterly|half-yearly|yearly|annual)\s*(?:premium|payment|basis)`,
returning group 1 (the frequency word as it appears in the input).  The five
alternatives start with distinct letters, so at any position at most one can
match and the priority order is immaterial. -/
def freqAt (cs : List Char) : Option (List Char) :=
  firstSome
    ((["monthly", "quarterly", "half-yearly", "yearly", "annual"]).map fun w =>
      (stripCI w.data cs).bind fun r =>
        ((kSeq spacesStar (kAlt (kLit "premium") (kAlt (kLit "payment") (kLit "basis"))))
            some r).map fun _ => cs.take w.data.length)

/-- `(?i)grace\s*period\s*(?:of)?\s*(\d+)\s*(?:days|months)`, returning the
captured digits. -/
def gracePat1 (cs : List Char) : Option (List Char) :=
  matchCap
    (kSeq (kLit "grace")
      (kSeq spacesStar
        (kSeq (kLit "period") (kSeq spacesStar (kSeq (kOpt (kLit "of")) spacesStar)))))
    Char.isDigit true (kSeq spacesStar (kAlt (kLit "days") (kLit "months"))) cs

/-- `(?i)(\d+)\s*(?:days|months)\s*grace\s*period`, returning the digits. -/
def gracePat2 (cs : List Char) : Option (List Char) :=
  matchCap kEps Char.isDigit true
    (kSeq spacesStar
      (kSeq (kAlt (kLit "days") (kLit "months"))
        (kSeq spacesStar (kSeq (kLit "grace") (kSeq spacesStar (kLit "period")))))) cs

def extract_premium_info (t : List Char) : PremiumInfo :=
  let tc := cleanContent t
  { amount :=
      S (match searchFirst premPat1 tc with
         | some s => s
         | none =>
           match searchFirst premPat2 tc with
           | some s => s
           | none => [])
    frequency := S ((searchFirst freqAt tc).getD [])
    due_dates := ""
    grace_period :=
      match searchFirst gracePat1 tc with
      | some n => S (n ++ " days".data)
      | none =>
        match searchFirst gracePat2 tc with
        | some n => S (n ++ " days".data)
        | none => "" }

/-! ## `extract_exclusions` (`src/model.py` lines 216-246) -/

/-- Terminator lookahead `(?=\n\s*[A-Z]{2,}|$)` of the section captures
(under `(?i)`, `[A-Z]` also matches lowercase letters; `$` matches at the end
of the input or just before a trailing newline). -/
def termSection (cs : List Char) : Bool :=
  (match cs with
   | '\n' :: r =>
     match r.dropWhile isSpaceCh with
     | a :: b :: _ => a.isAlpha && b.isAlpha
     | _ => false
   | _ => false)
    || cs = []
    || cs = ['\n']

/-- `HEAD[^\n]*\n(.*?)(?=\n\s*[A-Z]{2,}|$)` with `re.DOTALL`: after the
heading, `[^\n]*` runs to the first newline (its class excludes `\n`, so the
greedy run is deterministic), a literal `\n` must follow, and group 1 is the
lazy capture up to the terminator. -/
def sectionAt (head : List Char → Option (List Char)) (cs : List Char) :
    Option (List Char) :=
  (head cs).bind fun r1 =>
    match r1.dropWhile clsNotNL with
    | '\n' :: r2 => some (capUntil termSection r2)
    | _ => none

/-- `(?i)(?:EXCLUSIONS|NOT\s+COVERED|WHAT\s+IS\s+NOT\s+COVERED)`, returning
the rest after the heading. -/
def exclHeadAt (cs : List Char) : Option (List Char) :=
  firstSome
    [stripCI "exclusions".data cs,
     (kSeq (kLit "not") (kSeq spacesPlus (kLit "covered"))) some cs,
     (kSeq (kLit "what")
        (kSeq spacesPlus
          (kSeq (kLit "is")
            (kSeq spacesPlus (kSeq (kLit "not") (kSeq spacesPlus (kLit "covered")))))))
        some cs]

/-- Bullet items of a section body, stripped, kept when longer than 10
characters (`src/model.py` lines 227-228 and 265-266). -/
def sectionItems (sec : List Char) : List (List Char) :=
  (findAllMatches bulletAt sec).filterMap fun s =>
    if 10 < (stripWS s).length then some (stripWS s) else none

/-- `(?i)(?:not covered|excluded|exclusions?):\s*([^.]*)` with consumed count. -/
def fbPat1 (cs : List Char) : Option (List Char × Nat) :=
  matchCapC
    (kSeq (kAlt (kLit "not covered") (kAlt (kLit "excluded") (kSeq (kLit "exclusion") (kOpt (kLit "s")))))
      (kSeq (kLit ":") spacesStar))
    clsNotDot false kEps cs

/-- `(?i)(?:policy does not cover|will not cover):\s*([^.]*)` -/
def fbPat2 (cs : List Char) : Option (List Char × Nat) :=
  matchCapC
    (kSeq (kAlt (kLit "policy does not cover") (kLit "will not cover"))
      (kSeq (kLit ":") spacesStar))
    clsNotDot false kEps cs

/-- `(?i)following are (?:not covered|excluded):\s*([^.]*)` -/
def fbPat3 (cs : List Char) : Option (List Char × Nat) :=
  matchCapC
    (kSeq (kLit "following are ")
      (kSeq (kAlt (kLit "not covered") (kLit "excluded")) (kSeq (kLit ":") spacesStar)))
    clsNotDot false kEps cs

/-- The inline-fallback scan of `extract_exclusions` (lines 231-242): the
`for` loop has no `break` and `re.finditer` is always truthy, so every
pattern contributes all of its matches; each captured clause is split on
commas, stripped, and filtered to items longer than 10 characters. -/
def fallbackItems (tc : List Char) : List (List Char) :=
  ((findAllMatches fbPat1 tc) ++ (findAllMatches fbPat2 tc) ++ (findAllMatches fbPat3 tc)).flatMap
    fun g => ((g.splitOn ',').map stripWS).filter fun item => 10 < item.length

/-- The duplicate-removal step (lines 244-246): keep the first occurrence of
each string, preserving order (`seen` is the set already emitted). -/
def dedupAux (seen : List String) : List String → List String
  | [] => []
  | x :: xs => if x ∈ seen then dedupAux seen xs else x :: dedupAux (x :: seen) xs

def extract_exclusions (t : List Char) : List String :=
  let tc := cleanContent t
  let fromSection :=
    match searchFirst (sectionAt exclHeadAt) tc with
    | some sec => sectionItems sec
    | none => []
  let items := if fromSection.isEmpty then fallbackItems tc else fromSection
  dedupAux [] (items.map S)

/-! ## `extract_claims_process` (`src/model.py` lines 248-295) -/

/-- `(?i)(?:CLAIMS?\s+PROCESS|HOW\s+TO\s+CLAIM|CLAIM\s+PROCEDURE)` -/
def claimHeadAt (cs : List Char) : Option (List Char) :=
  firstSome
    [(kSeq (kLit "claim") (kSeq (kOpt (kLit "s")) (kSeq spacesPlus (kLit "process")))) some cs,
     (kSeq (kLit "how") (kSeq spacesPlus (kSeq (kLit "to") (kSeq spacesPlus (kLit "claim"))))) some cs,
     (kSeq (kLit "claim") (kSeq spacesPlus (kLit "procedure"))) some cs]

/-- `(?i)(?:required|necessary)\s*documents?[^:]*:\s*([^.]*)`, returning
group 1. -/
def docPat (cs : List Char) : Option (List Char) :=
  matchCap
    (kSeq (kAlt (kLit "required") (kLit "necessary"))
      (kSeq spacesStar
        (kSeq (kLit "document")
          (kSeq (kOpt (kLit "s")) (kSeq (kStarG clsNotColon) (kSeq (kLit ":") spacesStar))))))
    clsNotDot false kEps cs

/-- `(?i)(?:contact|call|reach)[^.]*(?:at|on)?\s*([0-9-]+)`, group 1. -/
def contactSecPat1 (cs : List Char) : Option (List Char) :=
  matchCap
    (kSeq (kAlt (kLit "contact") (kAlt (kLit "call") (kLit "reach")))
      (kSeq (kStarG clsNotDot) (kSeq (kOpt (kAlt (kLit "at") (kLit "on"))) spacesStar)))
    clsPhoneNoSp true kEps cs

/-- `(?i)toll\s*free\s*:?\s*([0-9-]+)`, group 1. -/
def contactSecPat2 (cs : List Char) : Option (List Char) :=
  matchCap
    (kSeq (kLit "toll")
      (kSeq spacesStar
        (kSeq (kLit "free") (kSeq spacesStar (kSeq (kOpt (kLit ":")) spacesStar)))))
    clsPhoneNoSp true kEps cs

/-- `(?i)(?:settle|settlement|process).*?within\s*(\d+)\s*(?:days|hours|weeks)`
(no `re.DOTALL`: `.` excludes newlines), returning the digits. -/
def timePat1 (cs : List Char) : Option (List Char) :=
  matchCap
    (kSeq (kAlt (kLit "settle") (kAlt (kLit "settlement") (kLit "process")))
      (kSeq (kStarL clsNotNL) (kSeq (kLit "within") spacesStar)))
    Char.isDigit true
    (kSeq spacesStar (kAlt (kLit "days") (kAlt (kLit "hours") (kLit "weeks")))) cs

/-- `(?i)(?:TAT|turnaround time)\s*:?\s*(\d+)\s*(?:days|hours|weeks)` -/
def timePat2 (cs : List Char) : Option (List Char) :=
  matchCap
    (kSeq (kAlt (kLit "tat") (kLit "turnaround time"))
      (kSeq spacesStar (kSeq (kOpt (kLit ":")) spacesStar)))
    Char.isDigit true
    (kSeq spacesStar (kAlt (kLit "days") (kAlt (kLit "hours") (kLit "weeks")))) cs

/-- The body of `extract_claims_process` once the claims section has been
located (lines 261-293), applied to the section text. -/
def claimsFromSection (sec : List Char) : ClaimsProcess :=
  { steps := (sectionItems sec).map S
    documents :=
      match searchFirst docPat sec with
      | some g => (g.splitOn ',').map fun d => S (stripWS d)
      | none => []
    contact :=
      -- the code stores `match.group(1)` with no `.strip()`
      S (match searchFirst contactSecPat1 sec with
         | some g => g
         | none => (searchFirst contactSecPat2 sec).getD [])
    timeframe :=
      match searchFirst timePat1 sec with
      | some n => S (n ++ " days".data)
      | none =>
        match searchFirst timePat2 sec with
        | some n => S (n ++ " days".data)
        | none => "" }

def emptyClaims : ClaimsProcess := ⟨[], [], "", ""⟩

def extract_claims_process (t : List Char) : ClaimsProcess :=
  let tc := cleanContent t
  match searchFirst (sectionAt claimHeadAt) tc with
  | some sec => claimsFromSection sec
  | none => emptyClaims

/-! ## `process_insurance_brochure` (`src/model.py` lines 297-314) -/

/-- `_extract_text` (lines 52-74): concatenate the pages' text, appending a
newline after each page. -/
def extractText (pages : List String) : List Char :=
  (pages.map fun p => p.data ++ ['\n']).flatten

/-- `process_insurance_brochure`: `none` as input models bytes that fail to
parse as a PDF (the `except` path returns `None`); a parsed document is its
list of per-page extracted texts.  A parsed document always yields a record. -/
def processBrochure (doc : Option (List String)) : Option PolicyRecord :=
  doc.map fun pages =>
    let text := extractText pages
    { policy_details := extract_policy_details text
      coverage_details := extract_coverage_details text
      premium_info := extract_premium_info text
      exclusions := extract_exclusions text
      claims_process := extract_claims_process text }

/-- The record every field of which has its initializer default. -/
def emptyRecord : PolicyRecord :=
  { policy_details := ⟨"", "", "", "", "", ""⟩
    coverage_details := ⟨"Health Insurance", "", [], []⟩
    premium_info := ⟨"", "", "", ""⟩
    exclusions := []
    claims_process := emptyClaims }

/-! ## Matcher lemmas -/

theorem firstSome_eq_some {α : Type} {l : List (Option α)} {r : α}
    (h : firstSome l = some r) : ∃ o ∈ l, o = some r := by
  induction l with
  | nil => simp [firstSome] at h
  | cons o os ih =>
    cases o with
    | some v =>
      simp only [firstSome] at h
      exact ⟨some v, List.mem_cons_self _ _, h⟩
    | none =>
      simp only [firstSome] at h
      obtain ⟨o', ho', hr⟩ := ih h
      exact ⟨o', List.mem_cons_of_mem _ ho', hr⟩

theorem searchFirst_some {α : Type} {m : List Char → Option α} {cs : List Char} {r : α}
    (h : searchFirst m cs = some r) : ∃ s, s <:+ cs ∧ m s = some r := by
  induction cs with
  | nil => exact ⟨[], List.suffix_refl [], h⟩
  | cons c cs ih =>
    rw [searchFirst] at h
    cases hm : m (c :: cs) with
    | some v =>
      rw [hm] at h
      simp only at h
      exact ⟨c :: cs, List.suffix_refl _, by rw [hm, h]⟩
    | none =>
      rw [hm] at h
      simp only at h
      obtain ⟨s, hs, hr⟩ := ih h
      exact ⟨s, hs.trans (List.suffix_cons c cs), hr⟩

theorem searchFirst_eq_none {α : Type} {m : List Char → Option α} {cs : List Char}
    (h : ∀ s, s <:+ cs → m s = none) : searchFirst m cs = none := by
  induction cs with
  | nil => exact h [] (List.suffix_refl [])
  | cons c cs ih =>
    rw [searchFirst, h (c :: cs) (List.suffix_refl _)]
    exact ih fun s hs => h s (hs.trans (List.suffix_cons c cs))

theorem searchFirst_isSome_of_drop {α : Type} {m : List Char → Option α} {cs : List Char}
    {i : Nat} (h : (m (cs.drop i)).isSome) : (searchFirst m cs).isSome := by
  induction cs generalizing i with
  | nil => simpa [searchFirst] using h
  | cons c cs ih =>
    rw [searchFirst]
    cases hm : m (c :: cs) with
    | some v => simp
    | none =>
      simp only
      cases i with
      | zero => rw [List.drop_zero] at h; rw [hm] at h; simp at h
      | succ j => exact ih (i := j) h

theorem stripCI_suffix : ∀ {p cs r : List Char}, stripCI p cs = some r → r <:+ cs := by
  intro p
  induction p with
  | nil =>
    intro cs r h
    rw [stripCI] at h
    cases h
    exact List.suffix_refl _
  | cons x xs ih =>
    intro cs r h
    cases cs with
    | nil => simp [stripCI] at h
    | cons c cs =>
      rw [stripCI] at h
      split at h
      · exact (ih h).trans (List.suffix_cons c cs)
      · cases h

/-- A pattern fragment only produces values through its continuation, called
on a suffix of the input. -/
def Conserv (p : Pat) : Prop :=
  ∀ {α : Type} (k : Cont α) (cs : List Char) (r : α),
    p k cs = some r → ∃ rest, rest <:+ cs ∧ k rest = some r

theorem conserv_kLit (s : String) : Conserv (kLit s) := by
  intro α k cs r h
  simp only [kLit] at h
  cases hs : stripCI s.data cs with
  | none => rw [hs] at h; cases h
  | some rest => rw [hs] at h; exact ⟨rest, stripCI_suffix hs, h⟩

theorem conserv_kEps : Conserv kEps :=
  fun _ _ r h => ⟨_, List.suffix_refl _, h⟩

theorem conserv_kSeq {a b : Pat} (ha : Conserv a) (hb : Conserv b) :
    Conserv (kSeq a b) := by
  intro α k cs r h
  obtain ⟨r1, hr1, h1⟩ := ha (b k) cs r h
  obtain ⟨r2, hr2, h2⟩ := hb k r1 r h1
  exact ⟨r2, hr2.trans hr1, h2⟩

theorem conserv_kAlt {a b : Pat} (ha : Conserv a) (hb : Conserv b) :
    Conserv (kAlt a b) := by
  intro α k cs r h
  simp only [kAlt] at h
  cases hα : a k cs with
  | some v => rw [hα] at h; simp only at h; cases h; exact ha k cs _ hα
  | none => rw [hα] at h; simp only at h; exact hb k cs r h

theorem conserv_kOpt {a : Pat} (ha : Conserv a) : Conserv (kOpt a) := by
  intro α k cs r h
  simp only [kOpt] at h
  cases hα : a k cs with
  | some v => rw [hα] at h; simp only at h; cases h; exact ha k cs _ hα
  | none => rw [hα] at h; simp only at h; exact ⟨cs, List.suffix_refl _, h⟩

theorem conserv_of_firstSome_drop {α : Type} {k : Cont α} {cs : List Char} {r : α}
    (os : List Nat) (h : firstSome (os.map fun i => k (cs.drop i)) = some r) :
    ∃ rest, rest <:+ cs ∧ k rest = some r := by
  obtain ⟨o, ho, hr⟩ := firstSome_eq_some h
  obtain ⟨i, _, rfl⟩ := List.mem_map.mp ho
  exact ⟨cs.drop i, List.drop_suffix i cs, hr⟩

theorem conserv_kStarG (cls : Char → Bool) : Conserv (kStarG cls) := by
  intro α k cs r h
  simp only [kStarG] at h
  exact conserv_of_firstSome_drop ((List.range _).map _)
    (by simpa [List.map_map] using h)

theorem conserv_kPlusG (cls : Char → Bool) : Conserv (kPlusG cls) := by
  intro α k cs r h
  simp only [kPlusG] at h
  exact conserv_of_firstSome_drop ((List.range _).map _)
    (by simpa [List.map_map] using h)

theorem conserv_kStarL (cls : Char → Bool) : Conserv (kStarL cls) := by
  intro α k cs r h
  simp only [kStarL] at h
  exact conserv_of_firstSome_drop (List.range _) h

theorem conserv_spacesStar : Conserv spacesStar := conserv_kStarG isSpaceCh

theorem conserv_spacesPlus : Conserv spacesPlus := conserv_kPlusG isSpaceCh

/-! ## No newline survives `clean_content` -/

theorem mem_collapseAux {c : Char} :
    ∀ {b : Bool} {cs : List Char}, c ∈ collapseAux b cs → c = ' ' ∨ isSpaceCh c = false := by
  intro b cs
  induction cs generalizing b with
  | nil => intro h; simp [collapseAux] at h
  | cons x xs ih =>
    intro h
    rw [collapseAux] at h
    by_cases hx : isSpaceCh x
    · rw [if_pos hx] at h
      cases b with
      | true => exact ih h
      | false =>
        rcases List.mem_cons.mp h with h' | h'
        · exact Or.inl h'
        · exact ih h'
    · rw [if_neg hx] at h
      rcases List.mem_cons.mp h with h' | h'
      · subst h'; exact Or.inr (by simpa using hx)
      · exact ih h'

theorem stripWS_subset (l : List Char) : stripWS l ⊆ l := by
  intro c hc
  rw [stripWS] at hc
  rw [List.mem_reverse] at hc
  have h1 := (List.dropWhile_suffix (l := (l.dropWhile isSpaceCh).reverse) isSpaceCh).subset hc
  rw [List.mem_reverse] at h1
  exact (List.dropWhile_suffix isSpaceCh).subset h1

theorem noNL_cleanContent (t : List Char) : '\n' ∉ cleanContent t := by
  intro h
  have h1 := stripWS_subset _ h
  rcases mem_collapseAux h1 with h2 | h2
  · cases h2
  · simp [isSpaceCh] at h2

/-! ## The section regexes require a newline (claims/exclusions sections) -/

theorem exclHeadAt_suffix {cs r : List Char} (h : exclHeadAt cs = some r) : r <:+ cs := by
  rw [exclHeadAt] at h
  obtain ⟨o, ho, hr⟩ := firstSome_eq_some h
  have hc1 : Conserv (kSeq (kLit "not") (kSeq spacesPlus (kLit "covered"))) :=
    conserv_kSeq (conserv_kLit _) (conserv_kSeq conserv_spacesPlus (conserv_kLit _))
  have hc2 : Conserv (kSeq (kLit "what")
      (kSeq spacesPlus
        (kSeq (kLit "is")
          (kSeq spacesPlus (kSeq (kLit "not") (kSeq spacesPlus (kLit "covered"))))))) :=
    conserv_kSeq (conserv_kLit _) (conserv_kSeq conserv_spacesPlus
      (conserv_kSeq (conserv_kLit _) (conserv_kSeq conserv_spacesPlus
        (conserv_kSeq (conserv_kLit _) (conserv_kSeq conserv_spacesPlus (conserv_kLit _))))))
  simp only [List.mem_cons, List.mem_singleton, List.not_mem_nil, or_false] at ho
  rcases ho with rfl | rfl | rfl
  · exact stripCI_suffix hr
  · obtain ⟨rest, hrest, hk⟩ := hc1 some cs r hr
    cases hk; exact hrest
  · obtain ⟨rest, hrest, hk⟩ := hc2 some cs r hr
    cases hk; exact hrest

theorem claimHeadAt_suffix {cs r : List Char} (h : claimHeadAt cs = some r) : r <:+ cs := by
  rw [claimHeadAt] at h
  obtain ⟨o, ho, hr⟩ := firstSome_eq_some h
  have hc1 : Conserv (kSeq (kLit "claim")
      (kSeq (kOpt (kLit "s")) (kSeq spacesPlus (kLit "process")))) :=
    conserv_kSeq (conserv_kLit _) (conserv_kSeq (conserv_kOpt (conserv_kLit _))
      (conserv_kSeq conserv_spacesPlus (conserv_kLit _)))
  have hc2 : Conserv (kSeq (kLit "how")
      (kSeq spacesPlus (kSeq (kLit "to") (kSeq spacesPlus (kLit "claim"))))) :=
    conserv_kSeq (conserv_kLit _) (conserv_kSeq conserv_spacesPlus
      (conserv_kSeq (conserv_kLit _) (conserv_kSeq conserv_spacesPlus (conserv_kLit _))))
  have hc3 : Conserv (kSeq (kLit "claim") (kSeq spacesPlus (kLit "procedure"))) :=
    conserv_kSeq (conserv_kLit _) (conserv_kSeq conserv_spacesPlus (conserv_kLit _))
  simp only [List.mem_cons, List.mem_singleton, List.not_mem_nil, or_false] at ho
  rcases ho with rfl | rfl | rfl
  · obtain ⟨rest, hrest, hk⟩ := hc1 some cs r hr
    cases hk; exact hrest
  · obtain ⟨rest, hrest, hk⟩ := hc2 some cs r hr
    cases hk; exact hrest
  · obtain ⟨rest, hrest, hk⟩ := hc3 some cs r hr
    cases hk; exact hrest

theorem sectionAt_eq_none {head : List Char → Option (List Char)} {cs : List Char}
    (hh : ∀ cs r, head cs = some r → r <:+ cs) (hn : '\n' ∉ cs) :
    sectionAt head cs = none := by
  rw [sectionAt]
  cases hd : head cs with
  | none => rfl
  | some r1 =>
    have hr1 : '\n' ∉ r1 := fun hmem => hn ((hh cs r1 hd).subset hmem)
    have : r1.dropWhile clsNotNL = [] := by
      rw [List.dropWhile_eq_nil_iff]
      intro x hx
      simp only [clsNotNL, decide_eq_true_eq]
      intro hx'
      exact hr1 (hx' ▸ hx)
    simp [this]

theorem claimsSection_never_matches (t : List Char) :
    searchFirst (sectionAt claimHeadAt) (cleanContent t) = none :=
  searchFirst_eq_none fun s hs =>
    sectionAt_eq_none (fun _ _ => claimHeadAt_suffix)
      (fun hmem => noNL_cleanContent t (hs.subset hmem))

theorem exclSection_never_matches (t : List Char) :
    searchFirst (sectionAt exclHeadAt) (cleanContent t) = none :=
  searchFirst_eq_none fun s hs =>
    sectionAt_eq_none (fun _ _ => exclHeadAt_suffix)
      (fun hmem => noNL_cleanContent t (hs.subset hmem))

theorem claims_always_default (t : List Char) : extract_claims_process t = emptyClaims := by
  rw [extract_claims_process, claimsSection_never_matches]

theorem exclusions_always_fallback (t : List Char) :
    extract_exclusions t = dedupAux [] ((fallbackItems (cleanContent t)).map S) := by
  rw [extract_exclusions, exclSection_never_matches]
  rfl

/-! ## Idempotence of `clean_content` -/

/-- Text in collapsed form: every whitespace character is a plain space and
no two whitespace characters are adjacent. -/
def Normed (l : List Char) : Prop :=
  (∀ c ∈ l, isSpaceCh c = true → c = ' ') ∧
  l.Chain' fun a b => ¬(isSpaceCh a = true ∧ isSpaceCh b = true)

theorem collapseAux_normed (cs : List Char) :
    Normed (collapseAux false cs) ∧ Normed (collapseAux true cs) ∧
      ∀ c, (collapseAux true cs).head? = some c → isSpaceCh c = false := by
  induction cs with
  | nil => refine ⟨⟨by simp [collapseAux], by simp [collapseAux]⟩,
      ⟨by simp [collapseAux], by simp [collapseAux]⟩, by simp [collapseAux]⟩
  | cons x xs ih =>
    obtain ⟨ihF, ihT, ihH⟩ := ih
    by_cases hx : isSpaceCh x
    · have hT : collapseAux true (x :: xs) = collapseAux true xs := by
        rw [collapseAux, if_pos hx]
        rfl
      have hF : collapseAux false (x :: xs) = ' ' :: collapseAux true xs := by
        rw [collapseAux, if_pos hx]
        rfl
      refine ⟨?_, ?_, ?_⟩
      · constructor
        · intro c hc _
          rw [hF] at hc
          rcases List.mem_cons.mp hc with rfl | hc'
          · rfl
          · rcases ihT with ⟨ihm, _⟩
            by_cases hcs : isSpaceCh c
            · exact ihm c hc' hcs
            · exact absurd ‹isSpaceCh c = true› (by simp [hcs])
        · rw [hF, List.chain'_cons']
          refine ⟨fun b hb => ?_, ihT.2⟩
          have := ihH b (by simpa using hb)
          simp [this]
      · rw [hT]; exact ihT
      · intro c hc; rw [hT] at hc; exact ihH c hc
    · have hT : collapseAux true (x :: xs) = x :: collapseAux false xs := by
        rw [collapseAux, if_neg hx]
      have hF : collapseAux false (x :: xs) = x :: collapseAux false xs := by
        rw [collapseAux, if_neg hx]
      have hcons : Normed (x :: collapseAux false xs) := by
        constructor
        · intro c hc hcs
          rcases List.mem_cons.mp hc with rfl | hc'
          · exact absurd hcs (by simp [hx])
          · exact ihF.1 c hc' hcs
        · rw [List.chain'_cons']
          refine ⟨fun b _ => ?_, ihF.2⟩
          intro ⟨hxs, _⟩
          exact hx hxs
      exact ⟨hF ▸ hcons, hT ▸ hcons, fun c hc => by
        rw [hT] at hc
        simp only [List.head?_cons, Option.some.injEq] at hc
        subst hc
        simpa using hx⟩

theorem collapseAux_true_eq_false {l : List Char}
    (h : ∀ c, l.head? = some c → isSpaceCh c = false) :
    collapseAux true l = collapseAux false l := by
  cases l with
  | nil => rfl
  | cons x xs =>
    have hx := h x (by simp)
    rw [collapseAux, collapseAux, if_neg (by simp [hx]), if_neg (by simp [hx])]


theorem collapseAux_eq_self {l : List Char} (h : Normed l) :
    collapseAux false l = l := by
  induction l with
  | nil => rfl
  | cons x xs ih =>
    obtain ⟨hmem, hch⟩ := h
    rw [List.chain'_cons'] at hch
    have hxs : Normed xs := ⟨fun c hc => hmem c (List.mem_cons_of_mem _ hc), hch.2⟩
    by_cases hx : isSpaceCh x
    · have hx' : x = ' ' := hmem x (List.mem_cons_self _ _) hx
      have hhead : ∀ c, xs.head? = some c → isSpaceCh c = false := by
        intro c hc
        have := hch.1 c hc
        by_cases hcs : isSpaceCh c
        · exact absurd ⟨hx, hcs⟩ this
        · simpa using hcs
      have : collapseAux false (x :: xs) = ' ' :: collapseAux true xs := by
        rw [collapseAux, if_pos hx]
        rfl
      rw [this, collapseAux_true_eq_false hhead, ih hxs, hx']
    · rw [collapseAux, if_neg hx, ih hxs]

theorem normed_suffix {l s : List Char} (h : Normed l) (hs : s <:+ l) : Normed s :=
  ⟨fun c hc => h.1 c (hs.subset hc), h.2.suffix hs⟩

theorem normed_reverse {l : List Char} (h : Normed l) : Normed l.reverse := by
  constructor
  · intro c hc; exact h.1 c (List.mem_reverse.mp hc)
  · rw [List.chain'_reverse]
    exact h.2.imp fun a b hab => fun ⟨h1, h2⟩ => hab ⟨h2, h1⟩

theorem normed_stripWS {l : List Char} (h : Normed l) : Normed (stripWS l) := by
  rw [stripWS]
  exact normed_reverse (normed_suffix (normed_reverse
    (normed_suffix h (List.dropWhile_suffix isSpaceCh))) (List.dropWhile_suffix isSpaceCh))

theorem dropWhile_head_false {p : Char → Bool} {x : List Char} {c : Char} {r : List Char}
    (h : x.dropWhile p = c :: r) : p c = false := by
  induction x with
  | nil => cases h
  | cons a l ih =>
    rw [List.dropWhile_cons] at h
    split at h
    · exact ih h
    · rename_i hpa
      injection h with h1 _
      subst h1
      simpa using hpa

theorem dropWhile_dropWhile (p : Char → Bool) (l : List Char) :
    (l.dropWhile p).dropWhile p = l.dropWhile p := by
  cases h : l.dropWhile p with
  | nil => rfl
  | cons c r => rw [List.dropWhile_cons, if_neg (by simp [dropWhile_head_false h])]

theorem stripWS_idem (l : List Char) : stripWS (stripWS l) = stripWS l := by
  have step1 : (stripWS l).dropWhile isSpaceCh = stripWS l := by
    rw [stripWS]
    cases hv : ((l.dropWhile isSpaceCh).reverse.dropWhile isSpaceCh).reverse with
    | nil => simp
    | cons c r =>
      have hpre : (c :: r) <+: l.dropWhile isSpaceCh := by
        rw [← hv]
        refine List.reverse_suffix.mp ?_
        rw [List.reverse_reverse]
        exact List.dropWhile_suffix isSpaceCh
      obtain ⟨t, ht⟩ := hpre
      have : isSpaceCh c = false := dropWhile_head_false (x := l) (by rw [← ht]; rfl)
      rw [List.dropWhile_cons, if_neg (by simp [this])]
  rw [stripWS, step1, stripWS, List.reverse_reverse, dropWhile_dropWhile]

theorem cinMatchAt_requires_nl {cs r : List Char} (h : cinMatchAt cs = some r) :
    '\n' ∈ cs := by
  rw [cinMatchAt, Option.bind_eq_some] at h
  obtain ⟨r1, h1, h⟩ := h
  cases h2 : r1.dropWhile isSpaceCh with
  | nil => rw [h2] at h; cases h
  | cons c r3 =>
    rw [h2] at h
    simp only at h
    split at h
    · split at h
      · cases h
      · cases h3 : (r3.drop (r3.takeWhile Char.isDigit).length).dropWhile
            (fun d => d ≠ '\n') with
        | nil => rw [h3] at h; cases h
        | cons d r4 =>
          rw [h3] at h
          simp only at h
          split at h
          · rename_i hd
            subst hd
            have hmem : '\n' ∈ (r3.drop (r3.takeWhile Char.isDigit).length).dropWhile
                fun d => d ≠ '\n' := by
              rw [h3]; exact List.mem_cons_self _ _
            have hmem2 := (List.dropWhile_suffix
              (l := r3.drop (r3.takeWhile Char.isDigit).length)
              fun d => d ≠ '\n').subset hmem
            have hmem3 := (List.drop_suffix (r3.takeWhile Char.isDigit).length r3).subset hmem2
            have hmem4 : '\n' ∈ r1.dropWhile isSpaceCh := by
              rw [h2]; exact List.mem_cons_of_mem _ hmem3
            exact (stripCI_suffix h1).subset
              ((List.dropWhile_suffix isSpaceCh).subset hmem4)
          · cases h
    · cases h

theorem tlMatchAt_requires_nl {cs r : List Char} (h : tlMatchAt cs = some r) :
    '\n' ∈ cs := by
  rw [tlMatchAt, Option.bind_eq_some] at h
  obtain ⟨r1, h1, h⟩ := h
  cases h3 : r1.dropWhile (fun d => d ≠ '\n') with
  | nil => rw [h3] at h; cases h
  | cons d r4 =>
    rw [h3] at h
    simp only at h
    split at h
    · rename_i hd
      subst hd
      have hmem : '\n' ∈ r1.dropWhile fun d => d ≠ '\n' := by
        rw [h3]; exact List.mem_cons_self _ _
      exact (stripCI_suffix h1).subset
        ((List.dropWhile_suffix fun d => d ≠ '\n').subset hmem)
    · cases h

theorem subAllFuel_id {m : List Char → Option (List Char)}
    (hm : ∀ s r, m s = some r → '\n' ∈ s) :
    ∀ (n : Nat) (cs : List Char), '\n' ∉ cs → subAllFuel m n cs = cs := by
  intro n
  induction n with
  | zero => intro cs _; rfl
  | succ n ih =>
    intro cs hcs
    cases cs with
    | nil => rfl
    | cons c cs =>
      rw [subAllFuel]
      cases hmc : m (c :: cs) with
      | some r => exact absurd (hm _ _ hmc) hcs
      | none =>
        simp only
        rw [ih cs fun h => hcs (List.mem_cons_of_mem _ h)]

theorem subAll_cin_id {cs : List Char} (h : '\n' ∉ cs) : subAll cinMatchAt cs = cs :=
  subAllFuel_id (fun _ _ => cinMatchAt_requires_nl) _ cs h

theorem subAll_tl_id {cs : List Char} (h : '\n' ∉ cs) : subAll tlMatchAt cs = cs :=
  subAllFuel_id (fun _ _ => tlMatchAt_requires_nl) _ cs h

theorem cleanContent_idem (t : List Char) :
    cleanContent (cleanContent t) = cleanContent t := by
  have hnl := noNL_cleanContent t
  have hnormed : Normed (cleanContent t) := by
    rw [cleanContent]
    exact normed_stripWS (collapseAux_normed _).1
  conv_lhs => rw [cleanContent]
  rw [subAll_cin_id hnl, subAll_tl_id hnl, collapseAux_eq_self hnormed]
  conv_lhs => rw [cleanContent]
  rw [stripWS_idem]
  rw [cleanContent]

/-! ## Capture properties -/

theorem matchCap_props {pre : Pat} (hc : Conserv pre) {cls : Char → Bool} {needOne : Bool}
    {suf : Pat} {cs v : List Char} (h : matchCap pre cls needOne suf cs = some v) :
    v.all cls = true ∧ (needOne = true → v ≠ []) := by
  rw [matchCap, Option.map_eq_some'] at h
  obtain ⟨pr, hpr, hv⟩ := h
  rw [matchCapC, Option.map_eq_some'] at hpr
  obtain ⟨pr0, hpr0, hpr0e⟩ := hpr
  obtain ⟨rest, _, hk⟩ := hc _ cs pr0 hpr0
  have hv0 : v = pr0.1 := by rw [← hv, ← hpr0e]
  split at hk
  · cases hk
  · rename_i hguard
    rw [Option.map_eq_some'] at hk
    obtain ⟨rl, _, hpr0eq⟩ := hk
    have h1 : pr0.1 = rest.takeWhile cls := by rw [← hpr0eq]
    constructor
    · rw [hv0, h1, List.all_eq_true]
      exact fun x hx => List.mem_takeWhile_imp hx
    · intro hone hnil
      apply hguard
      rw [hone, hv0, h1] at *
      simp only [Bool.true_and]
      rw [List.isEmpty_iff]
      exact hnil

/-- The prefix fragment of the first grace-period pattern is conservative. -/
theorem conserv_gracePre1 :
    Conserv (kSeq (kLit "grace")
      (kSeq spacesStar
        (kSeq (kLit "period") (kSeq spacesStar (kSeq (kOpt (kLit "of")) spacesStar))))) :=
  conserv_kSeq (conserv_kLit _) (conserv_kSeq conserv_spacesStar
    (conserv_kSeq (conserv_kLit _) (conserv_kSeq conserv_spacesStar
      (conserv_kSeq (conserv_kOpt (conserv_kLit _)) conserv_spacesStar))))

/-! ## Deduplication -/

/-- Modelled from the spec: "deduplicate while preserving first-seen order
(exact string equality)" — keep an element when it has not appeared among the
already-kept ones. -/
def specDedupFirstSeen (xs : List String) : List String :=
  xs.foldl (fun acc x => if x ∈ acc then acc else acc ++ [x]) []

theorem dedupAux_foldl (xs : List String) :
    ∀ (acc seen : List String), (∀ a, a ∈ seen ↔ a ∈ acc) →
      xs.foldl (fun acc x => if x ∈ acc then acc else acc ++ [x]) acc =
        acc ++ dedupAux seen xs := by
  induction xs with
  | nil => intro acc seen _; simp [dedupAux]
  | cons x xs ih =>
    intro acc seen hiff
    rw [List.foldl_cons, dedupAux]
    by_cases hx : x ∈ acc
    · rw [if_pos hx, if_pos ((hiff x).mpr hx)]
      exact ih acc seen hiff
    · rw [if_neg hx, if_neg fun hmem => hx ((hiff x).mp hmem)]
      rw [ih (acc ++ [x]) (x :: seen) fun a => by
        constructor
        · intro ha
          rcases List.mem_cons.mp ha with rfl | ha'
          · simp
          · exact List.mem_append_left _ ((hiff a).mp ha')
        · intro ha
          rcases List.mem_append.mp ha with ha' | ha'
          · exact List.mem_cons_of_mem _ ((hiff a).mpr ha')
          · simp at ha'
            simp [ha']]
      simp

theorem dedupAux_eq_spec (xs : List String) : dedupAux [] xs = specDedupFirstSeen xs := by
  rw [specDedupFirstSeen, dedupAux_foldl xs [] [] (by simp), List.nil_append]

theorem dedupAux_mem {xs : List String} :
    ∀ {seen a}, a ∈ dedupAux seen xs → a ∈ xs := by
  induction xs with
  | nil => intro seen a h; simp [dedupAux] at h
  | cons x xs ih =>
    intro seen a h
    rw [dedupAux] at h
    split at h
    · exact List.mem_cons_of_mem _ (ih h)
    · rcases List.mem_cons.mp h with rfl | h'
      · exact List.mem_cons_self _ _
      · exact List.mem_cons_of_mem _ (ih h')

theorem dedupAux_not_seen {xs : List String} :
    ∀ {seen a}, a ∈ dedupAux seen xs → a ∉ seen := by
  induction xs with
  | nil => intro seen a h; simp [dedupAux] at h
  | cons x xs ih =>
    intro seen a h
    rw [dedupAux] at h
    split at h
    · exact ih h
    · rcases List.mem_cons.mp h with rfl | h'
      · assumption
      · intro hseen
        exact ih h' (List.mem_cons_of_mem _ hseen)

theorem dedupAux_nodup (xs : List String) : ∀ seen, (dedupAux seen xs).Nodup := by
  induction xs with
  | nil => intro seen; simp [dedupAux]
  | cons x xs ih =>
    intro seen
    rw [dedupAux]
    split
    · exact ih seen
    · rw [List.nodup_cons]
      exact ⟨fun hmem => dedupAux_not_seen hmem (List.mem_cons_self _ _), ih (x :: seen)⟩

/-! ## Length filters (membership facts) -/

theorem length_S (cs : List Char) : (S cs).length = cs.length := rfl

theorem risks_covered_length {t : List Char} {s : String}
    (h : s ∈ (extract_coverage_details t).risks_covered) : 10 < s.length := by
  rw [extract_coverage_details] at h
  simp only at h
  cases hsec : searchFirst benefitAt (cleanContent t) with
  | none => rw [hsec] at h; simp at h
  | some sec =>
    rw [hsec] at h
    simp only at h
    rw [List.mem_filterMap] at h
    obtain ⟨b, _, hb⟩ := h
    split at hb
    · rename_i hcond
      cases hb
      rw [length_S]
      have hc : 10 < (stripWS b).length ∧ searchFirst cinTLAt b = none := by
        simpa using hcond
      exact hc.1
    · cases hb

theorem steps_length {sec : List Char} {s : String}
    (h : s ∈ (claimsFromSection sec).steps) : 10 < s.length := by
  rw [claimsFromSection] at h
  simp only at h
  rw [List.mem_map] at h
  obtain ⟨b, hb, rfl⟩ := h
  rw [sectionItems, List.mem_filterMap] at hb
  obtain ⟨a, _, ha⟩ := hb
  split at ha
  · rename_i hcond
    cases ha
    rw [length_S]
    exact hcond
  · cases ha

theorem exclusions_length {t : List Char} {s : String}
    (h : s ∈ extract_exclusions t) : 10 < s.length := by
  rw [exclusions_always_fallback] at h
  have h1 := dedupAux_mem h
  rw [List.mem_map] at h1
  obtain ⟨b, hb, rfl⟩ := h1
  rw [fallbackItems, List.mem_flatMap] at hb
  obtain ⟨g, _, hg⟩ := hb
  rw [List.mem_filter] at hg
  rw [length_S]
  simpa using hg.2

/-! ## Grace-period relabeling facts -/

theorem grace_field (t : List Char) :
    (extract_premium_info t).grace_period =
      match searchFirst gracePat1 (cleanContent t) with
      | some n => S (n ++ " days".data)
      | none =>
        match searchFirst gracePat2 (cleanContent t) with
        | some n => S (n ++ " days".data)
        | none => "" := rfl

theorem S_ne_empty {l : List Char} (h : l ≠ []) : S l ≠ "" := by
  intro hc
  exact h (congrArg String.data hc)

theorem grace_relabel {t : List Char} (h : (extract_premium_info t).grace_period ≠ "") :
    ∃ n : List Char, n ≠ [] ∧ n.all Char.isDigit = true ∧
      (extract_premium_info t).grace_period = S (n ++ " days".data) := by
  rw [grace_field] at h ⊢
  cases h1 : searchFirst gracePat1 (cleanContent t) with
  | some n =>
    obtain ⟨s, _, hm⟩ := searchFirst_some h1
    rw [gracePat1] at hm
    have hp := matchCap_props conserv_gracePre1 hm
    exact ⟨n, hp.2 rfl, hp.1, rfl⟩
  | none =>
    rw [h1] at h
    simp only at h
    cases h2 : searchFirst gracePat2 (cleanContent t) with
    | some n =>
      obtain ⟨s, _, hm⟩ := searchFirst_some h2
      rw [gracePat2] at hm
      have hp := matchCap_props conserv_kEps hm
      exact ⟨n, hp.2 rfl, hp.1, rfl⟩
    | none =>
      rw [h2] at h
      exact absurd rfl h

theorem gracePat1_on_phrase (suf : List Char) :
    gracePat1 ("grace period of 6 months".data ++ suf) = some ['6'] := by
  simp [gracePat1, matchCap, matchCapC, kSeq, kLit, kOpt, kStarG, kAlt, kEps, spacesStar,
        stripCI, firstSome, isSpaceCh, List.takeWhile_cons, List.dropWhile_cons]

theorem grace_fires {t : List Char}
    (h : "grace period of 6 months".data <:+: cleanContent t) :
    (extract_premium_info t).grace_period ≠ "" := by
  obtain ⟨s1, s2, heq⟩ := h
  have hdrop : (cleanContent t).drop s1.length = "grace period of 6 months".data ++ s2 := by
    rw [← heq, List.append_assoc, List.drop_left]
  have hsome : (searchFirst gracePat1 (cleanContent t)).isSome := by
    apply searchFirst_isSome_of_drop (i := s1.length)
    rw [hdrop, gracePat1_on_phrase]
    rfl
  rw [grace_field]
  cases h1 : searchFirst gracePat1 (cleanContent t) with
  | none => rw [h1] at hsome; simp at hsome
  | some n =>
    simp only
    apply S_ne_empty
    simp

/-! ## Field equations of `extract_policy_details` -/

theorem policy_name_field (t : List Char) :
    (extract_policy_details t).policy_name =
      S (match searchFirst (matchSpan namePat1) (cleanContent t) with
         | some s => stripWS s
         | none =>
           match searchFirst (matchSpan namePat2) (cleanContent t) with
           | some s => stripWS s
           | none => []) := rfl

theorem policy_number_field (t : List Char) :
    (extract_policy_details t).policy_number =
      S (match searchFirst (matchSpan numPat1) (cleanContent t) with
         | some s => s
         | none =>
           match searchFirst (matchSpan numPat2) (cleanContent t) with
           | some s => s
           | none => []) := rfl

theorem insurer_name_field (t : List Char) :
    (extract_policy_details t).insurer_name =
      S (match searchFirst (matchSpan insPat1) (cleanContent t) with
         | some s => stripWS s
         | none =>
           match searchFirst insurerLabelAt (cleanContent t) with
           | some s => stripWS s
           | none => []) := rfl

theorem insurer_contact_field (t : List Char) :
    (extract_policy_details t).insurer_contact =
      S (match searchFirst tollFreePat (cleanContent t) with
         | some s => stripWS s
         | none =>
           match searchFirst contactAtPat (cleanContent t) with
           | some s => stripWS s
           | none => []) := rfl

/-! ## JSON shape of the output record -/

/-- JSON-like values, to state which keys the serialized record carries. -/
inductive JVal where
  | str : String → JVal
  | arr : List String → JVal
  | obj : List (String × JVal) → JVal

/-- The `policy_details` dictionary (initializer at `src/model.py` 91-98). -/
def policyDetailsJson (d : PolicyDetails) : List (String × JVal) :=
  [("policy_name", .str d.policy_name), ("policy_number", .str d.policy_number),
   ("insurer_name", .str d.insurer_name), ("insurer_contact", .str d.insurer_contact),
   ("issue_date", .str d.issue_date), ("expiry_date", .str d.expiry_date)]

/-- The `coverage` dictionary (lines 149-154). -/
def coverageJson (c : CoverageDetails) : List (String × JVal) :=
  [("type", .str c.type), ("sum_assured", .str c.sum_assured),
   ("risks_covered", .arr c.risks_covered),
   ("additional_benefits", .arr c.additional_benefits)]

/-- The `premium_info` dictionary (lines 180-185). -/
def premiumJson (p : PremiumInfo) : List (String × JVal) :=
  [("amount", .str p.amount), ("frequency", .str p.frequency),
   ("due_dates", .str p.due_dates), ("grace_period", .str p.grace_period)]

/-- The `claims_info` dictionary (lines 251-256). -/
def claimsJson (c : ClaimsProcess) : List (String × JVal) :=
  [("steps", .arr c.steps), ("documents", .arr c.documents),
   ("contact", .str c.contact), ("timeframe", .str c.timeframe)]

/-- The `result` dictionary (lines 303-309). -/
def recordJson (r : PolicyRecord) : List (String × JVal) :=
  [("policy_details", .obj (policyDetailsJson r.policy_details)),
   ("coverage_details", .obj (coverageJson r.coverage_details)),
   ("premium_info", .obj (premiumJson r.premium_info)),
   ("exclusions", .arr r.exclusions),
   ("claims_process", .obj (claimsJson r.claims_process))]

/-! ## Concrete documents used by the claim theorems -/

/-- Canonical end-to-end scenario document. -/
def doc3 : String :=
  "TOTAL HEALTH PLAN Sum Assured - Rs. 5,00,000 Premium Amount: 12,500 toll free : 1800-266-0700 BENEFITS COVERED • hospital room charges. • ambulance cover fees. • daycare treatment cover."

/-- The same document preceded by a competing earlier sum-pattern match. -/
def doc3x : String :=
  "sum insured: 1 TOTAL HEALTH PLAN Sum Assured - Rs. 5,00,000 Premium Amount: 12,500 toll free : 1800-266-0700 BENEFITS COVERED • hospital room charges. • ambulance cover fees. • daycare treatment cover."


set_option maxRecDepth 40000

/-- C1 (counterexample): a successfully parsed PDF with zero pages does NOT
produce a failure: `process` returns the `PolicyRecord` whose every field is
at its empty default. -/
theorem C1_counterexample_zero_pages :
    processBrochure (some []) =
      some ⟨⟨"", "", "", "", "", ""⟩, ⟨"Health Insurance", "", [], []⟩,
            ⟨"", "", "", ""⟩, [], ⟨[], [], "", ""⟩⟩ := by decide

/-- C1 (amended): `process` fails only when the PDF bytes fail to parse; a
parsed document, even with zero pages, always yields a record, and with zero
pages that record has every field at its empty default. -/
theorem C1_zero_pages_default_record :
    (∀ pages : List String, (processBrochure (some pages)).isSome = true) ∧
    processBrochure none = none ∧
    extractText [] = [] ∧
    processBrochure (some []) =
      some ⟨⟨"", "", "", "", "", ""⟩, ⟨"Health Insurance", "", [], []⟩,
            ⟨"", "", "", ""⟩, [], ⟨[], [], "", ""⟩⟩ :=
  ⟨fun _ => rfl, rfl, rfl, by decide⟩

/-- C2: the section regexes of `extract_claims_process` and of the primary
strategy of `extract_exclusions` require a literal newline, but
`clean_content` (applied first) removes every newline, so they never match:
`extract_claims_process` always returns the all-default record and
`extract_exclusions` always takes its inline fallback patterns. -/
theorem C2_section_regexes_never_match :
    (∀ t : List Char, searchFirst (sectionAt claimHeadAt) (cleanContent t) = none) ∧
    (∀ t : List Char, searchFirst (sectionAt exclHeadAt) (cleanContent t) = none) ∧
    (∀ t : List Char, extract_claims_process t = ⟨[], [], "", ""⟩) ∧
    (∀ t : List Char,
      extract_exclusions t = dedupAux [] ((fallbackItems (cleanContent t)).map S)) :=
  ⟨claimsSection_never_matches, exclSection_never_matches,
   claims_always_default, exclusions_always_fallback⟩

/-- C3 (counterexample): a document whose normalized text contains all the
required phrases and whose BENEFITS COVERED section yields exactly the three
long bulleted items can still carry an earlier competing "sum insured" match,
so `process` does not return `sumAssured = "5,00,000"` on every such
document — first match wins. -/
theorem C3_counterexample_earlier_match :
    ("Sum Assured - Rs. 5,00,000".data <:+: cleanContent (extractText [doc3x])) ∧
    ("Premium Amount: 12,500".data <:+: cleanContent (extractText [doc3x])) ∧
    ("toll free : 1800-266-0700".data <:+: cleanContent (extractText [doc3x])) ∧
    ((processBrochure (some [doc3x])).map (fun r => r.coverage_details.risks_covered) =
      some ["hospital room charges", "ambulance cover fees", "daycare treatment cover"]) ∧
    (∀ s ∈ ["hospital room charges", "ambulance cover fees", "daycare treatment cover"],
      10 < s.length) ∧
    ((processBrochure (some [doc3x])).map (fun r => r.coverage_details.sum_assured) =
      some "1") ∧
    ("1" : String) ≠ "5,00,000" := by
  refine ⟨by decide, by decide, by decide, by decide, by decide, by decide, by decide⟩

/-- C3 (amended): on the canonical scenario document, where the quoted
phrases are the first matches of their patterns, `process` returns exactly
the four claimed field values, with the three bulleted items in document
order. -/
theorem C3_canonical_scenario :
    (processBrochure (some [doc3])).map
        (fun r => (r.coverage_details.sum_assured, r.premium_info.amount,
                   r.policy_details.insurer_contact, r.coverage_details.risks_covered)) =
      some ("5,00,000", "12,500", "1800-266-0700",
            ["hospital room charges", "ambulance cover fees", "daycare treatment cover"]) := by
  decide

/-- C4: the captured grace-period number is always stored with the unit word
"days", whatever unit appeared: "grace period of 6 months" (either phrasing)
yields "6 days"; whenever the normalized text contains the phrase the field
is populated; any populated value is a nonempty digit string followed by
" days"; and the claims-section timeframe relabels "within 5 hours" the same
way. -/
theorem C4_grace_relabeled_as_days :
    ((extract_premium_info "grace period of 6 months".data).grace_period = "6 days") ∧
    ((extract_premium_info "6 months grace period".data).grace_period = "6 days") ∧
    (∀ t : List Char, "grace period of 6 months".data <:+: cleanContent t →
      (extract_premium_info t).grace_period ≠ "") ∧
    (∀ t : List Char, (extract_premium_info t).grace_period ≠ "" →
      ∃ n : List Char, n ≠ [] ∧ n.all Char.isDigit = true ∧
        (extract_premium_info t).grace_period = S (n ++ " days".data)) ∧
    ((claimsFromSection "claims are settled within 5 hours".data).timeframe = "5 days") :=
  ⟨by decide, by decide, fun _ h => grace_fires h, fun _ h => grace_relabel h, by decide⟩

/-- C4 witness: the grace-period facts instantiated on a concrete text that
contains the phrase strictly inside. -/
theorem C4_witness :
    ("grace period of 6 months".data <:+:
      cleanContent "x grace period of 6 months and more".data) ∧
    ((extract_premium_info "x grace period of 6 months and more".data).grace_period ≠ "") ∧
    (∃ n : List Char, n ≠ [] ∧ n.all Char.isDigit = true ∧
      (extract_premium_info "x grace period of 6 months and more".data).grace_period =
        S (n ++ " days".data)) :=
  ⟨by decide, C4_grace_relabeled_as_days.2.2.1 _ (by decide),
   C4_grace_relabeled_as_days.2.2.2.1 _
     (C4_grace_relabeled_as_days.2.2.1 _ (by decide))⟩

/-- C5 (counterexample): when only the generic labeled pattern matches, the
code stores `match.group(0)` — the label included — not the captured token. -/
theorem C5_counterexample_group0 :
    (searchFirst (matchSpan numPat1) (cleanContent "Policy Number: AB-12".data) = none) ∧
    ((extract_policy_details "Policy Number: AB-12".data).policy_number =
      "Policy Number: AB-12") ∧
    ("Policy Number: AB-12" : String) ≠ "AB-12" := by
  refine ⟨by decide, by decide, by decide⟩

/-- C5 (amended): when the domain-specific pattern fails and the generic
labeled pattern matches, `extract_policy_details` stores the whole matched
span (group 0, label and token, no trimming). -/
theorem C5_stores_whole_match :
    (∀ (t s : List Char), searchFirst (matchSpan numPat1) (cleanContent t) = none →
      searchFirst (matchSpan numPat2) (cleanContent t) = some s →
      (extract_policy_details t).policy_number = S s) ∧
    ((extract_policy_details "Policy Number: AB-12".data).policy_number =
      "Policy Number: AB-12") := by
  constructor
  · intro t s h1 h2
    rw [policy_number_field, h1, h2]
  · decide

/-- C5 witness: the stored value on "Policy Number: AB-12" is the whole
matched span. -/
theorem C5_witness :
    (searchFirst (matchSpan numPat1) (cleanContent "Policy Number: AB-12".data) = none) ∧
    (searchFirst (matchSpan numPat2) (cleanContent "Policy Number: AB-12".data) =
      some "Policy Number: AB-12".data) ∧
    ((extract_policy_details "Policy Number: AB-12".data).policy_number =
      S "Policy Number: AB-12".data) :=
  ⟨by decide, by decide,
   C5_stores_whole_match.1 _ _ (by decide) (by decide)⟩

/-- C6: the text normalizer `clean_content` is idempotent. -/
theorem C6_clean_content_idempotent :
    ∀ t : List Char, cleanContent (cleanContent t) = cleanContent t :=
  cleanContent_idem

/-- C7: `extract_exclusions` deduplicates by exact string equality keeping
first occurrences in order: on a text whose collected fallback items are
[A, B, A] it returns [A, B]; the dedup step equals the spec's
first-seen-order dedup, and the output never has duplicates. -/
theorem C7_dedup_first_seen :
    ((fallbackItems (cleanContent "not covered: itemAAAAAAA, itemBBBBBBB. excluded: itemAAAAAAA.".data)).map S =
      ["itemAAAAAAA", "itemBBBBBBB", "itemAAAAAAA"]) ∧
    (extract_exclusions "not covered: itemAAAAAAA, itemBBBBBBB. excluded: itemAAAAAAA.".data =
      ["itemAAAAAAA", "itemBBBBBBB"]) ∧
    (∀ xs : List String, dedupAux [] xs = specDedupFirstSeen xs) ∧
    (∀ t : List Char, (extract_exclusions t).Nodup) := by
  refine ⟨by decide, by decide, dedupAux_eq_spec, fun t => ?_⟩
  rw [exclusions_always_fallback]
  exact dedupAux_nodup _ _

/-- C8: the bullet-item filter keeps exactly the items whose trimmed length
exceeds 10 characters, at all three sites (risks, exclusions, steps): a
10-character item is dropped and an 11-character one kept. -/
theorem C8_length_filter_strict :
    ((extract_coverage_details "BENEFITS COVERED • abcdefghij. • abcdefghijk.".data).risks_covered =
      ["abcdefghijk"]) ∧
    (extract_exclusions "not covered: aaaaabbbbb, cccccddddd1.".data = ["cccccddddd1"]) ∧
    ((claimsFromSection "1. abcdefghij. 2. abcdefghijk.".data).steps = ["abcdefghijk"]) ∧
    (("abcdefghij" : String).length = 10 ∧ ("abcdefghijk" : String).length = 11) ∧
    (("aaaaabbbbb" : String).length = 10 ∧ ("cccccddddd1" : String).length = 11) ∧
    (∀ (t : List Char) (s : String),
      s ∈ (extract_coverage_details t).risks_covered → 10 < s.length) ∧
    (∀ (t : List Char) (s : String), s ∈ extract_exclusions t → 10 < s.length) ∧
    (∀ (sec : List Char) (s : String),
      s ∈ (claimsFromSection sec).steps → 10 < s.length) :=
  ⟨by decide, by decide, by decide, by decide, by decide,
   fun _ _ h => risks_covered_length h, fun _ _ h => exclusions_length h,
   fun _ _ h => steps_length h⟩

/-- C8 witness: the membership bounds instantiated on the concrete items. -/
theorem C8_witness :
    (("abcdefghijk" : String) ∈
      (extract_coverage_details "BENEFITS COVERED • abcdefghij. • abcdefghijk.".data).risks_covered ∧
      10 < ("abcdefghijk" : String).length) ∧
    (("cccccddddd1" : String) ∈ extract_exclusions "not covered: aaaaabbbbb, cccccddddd1.".data ∧
      10 < ("cccccddddd1" : String).length) ∧
    (("abcdefghijk" : String) ∈ (claimsFromSection "1. abcdefghij. 2. abcdefghijk.".data).steps ∧
      10 < ("abcdefghijk" : String).length) :=
  ⟨⟨by decide, C8_length_filter_strict.2.2.2.2.2.1
      "BENEFITS COVERED • abcdefghij. • abcdefghijk.".data "abcdefghijk" (by decide)⟩,
   ⟨by decide, C8_length_filter_strict.2.2.2.2.2.2.1
      "not covered: aaaaabbbbb, cccccddddd1.".data "cccccddddd1" (by decide)⟩,
   ⟨by decide, C8_length_filter_strict.2.2.2.2.2.2.2
      "1. abcdefghij. 2. abcdefghijk.".data "abcdefghijk" (by decide)⟩⟩

/-- C9: in `extract_policy_details` every populated field follows an ordered,
first-match-wins pattern list: if the first pattern matches anywhere its
result is stored (even when the second pattern also matches, possibly
earlier in the text); if the first pattern fails and the second matches, the
second pattern's result is stored; and when no pattern matches the field
stays "". -/
theorem C9_first_match_wins :
    (∀ (t s : List Char), searchFirst (matchSpan namePat1) (cleanContent t) = some s →
      (extract_policy_details t).policy_name = S (stripWS s)) ∧
    (∀ (t s : List Char), searchFirst (matchSpan namePat1) (cleanContent t) = none →
      searchFirst (matchSpan namePat2) (cleanContent t) = some s →
      (extract_policy_details t).policy_name = S (stripWS s)) ∧
    (∀ t : List Char, searchFirst (matchSpan namePat1) (cleanContent t) = none →
      searchFirst (matchSpan namePat2) (cleanContent t) = none →
      (extract_policy_details t).policy_name = "") ∧
    (∀ (t s : List Char), searchFirst (matchSpan numPat1) (cleanContent t) = some s →
      (extract_policy_details t).policy_number = S s) ∧
    (∀ (t s : List Char), searchFirst (matchSpan numPat1) (cleanContent t) = none →
      searchFirst (matchSpan numPat2) (cleanContent t) = some s →
      (extract_policy_details t).policy_number = S s) ∧
    (∀ t : List Char, searchFirst (matchSpan numPat1) (cleanContent t) = none →
      searchFirst (matchSpan numPat2) (cleanContent t) = none →
      (extract_policy_details t).policy_number = "") ∧
    (∀ (t s : List Char), searchFirst (matchSpan insPat1) (cleanContent t) = some s →
      (extract_policy_details t).insurer_name = S (stripWS s)) ∧
    (∀ (t s : List Char), searchFirst (matchSpan insPat1) (cleanContent t) = none →
      searchFirst insurerLabelAt (cleanContent t) = some s →
      (extract_policy_details t).insurer_name = S (stripWS s)) ∧
    (∀ t : List Char, searchFirst (matchSpan insPat1) (cleanContent t) = none →
      searchFirst insurerLabelAt (cleanContent t) = none →
      (extract_policy_details t).insurer_name = "") ∧
    (∀ (t s : List Char), searchFirst tollFreePat (cleanContent t) = some s →
      (extract_policy_details t).insurer_contact = S (stripWS s)) ∧
    (∀ (t s : List Char), searchFirst tollFreePat (cleanContent t) = none →
      searchFirst contactAtPat (cleanContent t) = some s →
      (extract_policy_details t).insurer_contact = S (stripWS s)) ∧
    (∀ t : List Char, searchFirst tollFreePat (cleanContent t) = none →
      searchFirst contactAtPat (cleanContent t) = none →
      (extract_policy_details t).insurer_contact = "") ∧
    ((searchFirst (matchSpan namePat2)
        (cleanContent "policy name: good health plan TOTAL HEALTH PLAN".data)).isSome = true) ∧
    ((extract_policy_details "policy name: good health plan TOTAL HEALTH PLAN".data).policy_name =
      "TOTAL HEALTH PLAN") ∧
    ((searchFirst (matchSpan numPat2)
        (cleanContent "HDHHLIP123V4 policy number: AB-99".data)).isSome = true) ∧
    ((extract_policy_details "HDHHLIP123V4 policy number: AB-99".data).policy_number =
      "HDHHLIP123V4") ∧
    (extract_policy_details "zzz".data = ⟨"", "", "", "", "", ""⟩) := by
  refine ⟨fun t s h => by rw [policy_name_field, h],
          fun t s h1 h2 => by rw [policy_name_field, h1, h2],
          fun t h1 h2 => by rw [policy_name_field, h1, h2]; rfl,
          fun t s h => by rw [policy_number_field, h],
          fun t s h1 h2 => by rw [policy_number_field, h1, h2],
          fun t h1 h2 => by rw [policy_number_field, h1, h2]; rfl,
          fun t s h => by rw [insurer_name_field, h],
          fun t s h1 h2 => by rw [insurer_name_field, h1, h2],
          fun t h1 h2 => by rw [insurer_name_field, h1, h2]; rfl,
          fun t s h => by rw [insurer_contact_field, h],
          fun t s h1 h2 => by rw [insurer_contact_field, h1, h2],
          fun t h1 h2 => by rw [insurer_contact_field, h1, h2]; rfl,
          by decide, by decide, by decide, by decide, by decide⟩

/-- C9 witness: the first-wins, fallback and no-match cases at concrete
inputs for each of the four populated fields. -/
theorem C9_witness :
    ((extract_policy_details "TOTAL HEALTH PLAN".data).policy_name =
      S (stripWS "TOTAL HEALTH PLAN".data)) ∧
    ((extract_policy_details "policy name: good health plan".data).policy_name =
      S (stripWS "policy name: good health plan".data)) ∧
    ((extract_policy_details "zzz".data).policy_name = "") ∧
    ((extract_policy_details "HDHHLIP123V4 policy number: AB-99".data).policy_number =
      S "HDHHLIP123V4".data) ∧
    ((extract_policy_details "policy no: XY-7".data).policy_number =
      S "policy no: XY-7".data) ∧
    ((extract_policy_details "zzz".data).policy_number = "") ∧
    ((extract_policy_details "HDFC ERGO General Insurance Company".data).insurer_name =
      S (stripWS "HDFC ERGO General Insurance Company".data)) ∧
    ((extract_policy_details "insurance company: Acme".data).insurer_name =
      S (stripWS "insurance company".data)) ∧
    ((extract_policy_details "zzz".data).insurer_name = "") ∧
    ((extract_policy_details "toll free : 1800-266-0700".data).insurer_contact =
      S (stripWS "1800-266-0700".data)) ∧
    ((extract_policy_details "contact at 99-88".data).insurer_contact =
      S (stripWS "99-88".data)) ∧
    ((extract_policy_details "zzz".data).insurer_contact = "") :=
  ⟨C9_first_match_wins.1 "TOTAL HEALTH PLAN".data "TOTAL HEALTH PLAN".data (by decide),
   C9_first_match_wins.2.1 "policy name: good health plan".data
     "policy name: good health plan".data (by decide) (by decide),
   C9_first_match_wins.2.2.1 "zzz".data (by decide) (by decide),
   C9_first_match_wins.2.2.2.1 "HDHHLIP123V4 policy number: AB-99".data
     "HDHHLIP123V4".data (by decide),
   C9_first_match_wins.2.2.2.2.1 "policy no: XY-7".data
     "policy no: XY-7".data (by decide) (by decide),
   C9_first_match_wins.2.2.2.2.2.1 "zzz".data (by decide) (by decide),
   C9_first_match_wins.2.2.2.2.2.2.1 "HDFC ERGO General Insurance Company".data
     "HDFC ERGO General Insurance Company".data (by decide),
   C9_first_match_wins.2.2.2.2.2.2.2.1 "insurance company: Acme".data
     "insurance company".data (by decide) (by decide),
   C9_first_match_wins.2.2.2.2.2.2.2.2.1 "zzz".data (by decide) (by decide),
   C9_first_match_wins.2.2.2.2.2.2.2.2.2.1 "toll free : 1800-266-0700".data
     "1800-266-0700".data (by decide),
   C9_first_match_wins.2.2.2.2.2.2.2.2.2.2.1 "contact at 99-88".data
     "99-88".data (by decide) (by decide),
   C9_first_match_wins.2.2.2.2.2.2.2.2.2.2.2.1 "zzz".data (by decide) (by decide)⟩

/-- C10: on every successfully processed document the record carries all
five top-level keys and every nested key, in the dictionary order of the
source; when nothing matches, every field holds its deterministic default. -/
theorem C10_all_keys_present :
    (∀ pages : List String, ∃ r, processBrochure (some pages) = some r ∧
      (recordJson r).map Prod.fst =
        ["policy_details", "coverage_details", "premium_info", "exclusions",
         "claims_process"] ∧
      (policyDetailsJson r.policy_details).map Prod.fst =
        ["policy_name", "policy_number", "insurer_name", "insurer_contact",
         "issue_date", "expiry_date"] ∧
      (coverageJson r.coverage_details).map Prod.fst =
        ["type", "sum_assured", "risks_covered", "additional_benefits"] ∧
      (premiumJson r.premium_info).map Prod.fst =
        ["amount", "frequency", "due_dates", "grace_period"] ∧
      (claimsJson r.claims_process).map Prod.fst =
        ["steps", "documents", "contact", "timeframe"]) ∧
    processBrochure (some ["hello world"]) =
      some ⟨⟨"", "", "", "", "", ""⟩, ⟨"Health Insurance", "", [], []⟩,
            ⟨"", "", "", ""⟩, [], ⟨[], [], "", ""⟩⟩ :=
  ⟨fun pages => ⟨_, rfl, rfl, rfl, rfl, rfl, rfl⟩, by decide⟩

end DocAnalyser
